import Mathlib

/-!
Shallow embedding of the WatermelonDB-style sync server in
`watermelon_app` (models `Project`, `Task`; view `SyncView`) and
`watermelon_user` (models `User`, `StudentProfile`; view
`UserProfileSyncView`).

Conventions of the embedding:
* Timestamps are `Int` milliseconds since the Unix epoch.  Python's
  `datetime.datetime.min` (the default cursor when `last_pulled_at` is
  absent) is the constant `minTs` below, the millisecond value of
  0001-01-01T00:00:00Z, which is below every value `timezone.now()` can
  return.
* The database tables are Lean lists of records kept in row order.
  `Model.objects.get(id=x)` is `List.find?` on the id; a Django row
  `save()` is a map over the list replacing the row with the matching
  primary key (primary keys are unique in the database, so the map
  touches one row).
* Django's `auto_now_add` / `auto_now` columns are set from the `now`
  argument threaded through each request handler; DRF marks such columns
  read-only, so client payloads never set them.
* DRF's `serializer.errors` dictionary rendering inside the f-string
  error messages is abstracted as the constant text `(serializer errors)`;
  no claim depends on that part of the message.
* A payload field that Python may omit from the dict is an outer
  `Option`; for a nullable foreign key the inner `Option` is the JSON
  null, so `some none` is "key present with value null" and `none` is
  "key absent" — the distinction `_apply_changes` tests with
  `if 'lead_task' in item`.
-/

namespace WatermelonSync

/-- Millisecond value of Python's `datetime.datetime.min` (0001-01-01),
used by both `get` handlers when no `last_pulled_at` is supplied. -/
def minTs : Int := -62135596800000

/-- JSON scalar values appearing in serialized records. -/
inductive JVal where
  | str (s : String)
  | num (n : Int)
  | null
deriving DecidableEq

/-- Serialize a nullable string (UUID foreign key) field. -/
def jOptStr : Option String → JVal
  | none => JVal.null
  | some s => JVal.str s

/-- Serialize a nullable timestamp field. -/
def jOptNum : Option Int → JVal
  | none => JVal.null
  | some n => JVal.num n

/-- A row of `watermelon_app.models.Project`: client-assignable UUID pk,
`name`, nullable FK `lead_task` to `Task`, timestamps, soft-delete. -/
structure ProjectRec where
  id : String
  name : String
  lead_task : Option String
  created_at : Int
  updated_at : Int
  deleted_at : Option Int
deriving DecidableEq

/-- A row of `watermelon_app.models.Task`: client-assignable UUID pk,
`title`, nullable FK `project` to `Project`, timestamps, soft-delete. -/
structure TaskRec where
  id : String
  title : String
  project : Option String
  created_at : Int
  updated_at : Int
  deleted_at : Option Int
deriving DecidableEq

/-- The `watermelon_app` database: the `Project` and `Task` tables. -/
structure Store where
  projects : List ProjectRec
  tasks : List TaskRec
deriving DecidableEq

/-- A row of `watermelon_user.models.User` (AbstractUser): integer pk,
the serializer-visible scalar columns, timestamps, soft-delete. -/
structure UserRec where
  id : Nat
  username : String
  email : String
  first_name : String
  last_name : String
  created_at : Int
  updated_at : Int
  deleted_at : Option Int
deriving DecidableEq

/-- A row of `watermelon_user.models.StudentProfile`: UUID pk, non-null
FK `user`, `bio`, timestamps, soft-delete. -/
structure StudentProfileRec where
  id : String
  user : Nat
  bio : String
  created_at : Int
  updated_at : Int
  deleted_at : Option Int
deriving DecidableEq

/-- The `watermelon_user` database: the `User` and `StudentProfile`
tables. -/
structure UserStore where
  users : List UserRec
  profiles : List StudentProfileRec
deriving DecidableEq

/-- `ProjectSerializer` output: fields `id, name, lead_task, created_at,
updated_at` — `deleted_at` is not in the serializer's field list. -/
def serializeProject (r : ProjectRec) : List (String × JVal) :=
  [("id", JVal.str r.id), ("name", JVal.str r.name),
   ("lead_task", jOptStr r.lead_task),
   ("created_at", JVal.num r.created_at),
   ("updated_at", JVal.num r.updated_at)]

/-- `TaskSerializer` output: fields `id, title, project, created_at,
updated_at` — `deleted_at` is not in the serializer's field list. -/
def serializeTask (r : TaskRec) : List (String × JVal) :=
  [("id", JVal.str r.id), ("title", JVal.str r.title),
   ("project", jOptStr r.project),
   ("created_at", JVal.num r.created_at),
   ("updated_at", JVal.num r.updated_at)]

/-- `UserSerializer` output: its `fields` list includes `deleted_at`. -/
def serializeUser (u : UserRec) : List (String × JVal) :=
  [("id", JVal.num (u.id : Int)), ("username", JVal.str u.username),
   ("email", JVal.str u.email), ("first_name", JVal.str u.first_name),
   ("last_name", JVal.str u.last_name),
   ("created_at", JVal.num u.created_at),
   ("updated_at", JVal.num u.updated_at),
   ("deleted_at", jOptNum u.deleted_at)]

/-- `StudentProfileSerializer` output: its `fields` list includes
`deleted_at`. -/
def serializeStudentProfile (p : StudentProfileRec) : List (String × JVal) :=
  [("id", JVal.str p.id), ("user", JVal.num (p.user : Int)),
   ("bio", JVal.str p.bio),
   ("created_at", JVal.num p.created_at),
   ("updated_at", JVal.num p.updated_at),
   ("deleted_at", jOptNum p.deleted_at)]

/-- Pull filter `created_at__gt=cursor, deleted_at__isnull=True`,
shared by every collection's `created` bucket in both `get` handlers. -/
def createdB (created_at : Int) (deleted_at : Option Int) (cursor : Int) : Bool :=
  decide (cursor < created_at) && decide (deleted_at = none)

/-- Pull filter `updated_at__gt=cursor, created_at__lte=cursor,
deleted_at__isnull=True`, shared by every `updated` bucket. -/
def updatedB (updated_at created_at : Int) (deleted_at : Option Int) (cursor : Int) : Bool :=
  decide (cursor < updated_at) && decide (created_at ≤ cursor) && decide (deleted_at = none)

/-- Pull filter `deleted_at__gt=cursor`, shared by every `deleted`
bucket; a SQL comparison against NULL is false. -/
def deletedB (deleted_at : Option Int) (cursor : Int) : Bool :=
  match deleted_at with
  | some d => decide (cursor < d)
  | none => false

/-- One collection's entry in a pull response: serialized bodies for
`created` and `updated`, bare identifiers for `deleted`. -/
structure CollectionDelta (ι : Type) where
  created : List (List (String × JVal))
  updated : List (List (String × JVal))
  deleted : List ι
deriving DecidableEq

/-- The body of `SyncView.get`'s response. -/
structure AppPullResponse where
  projects : CollectionDelta String
  tasks : CollectionDelta String
  timestamp : Int
deriving DecidableEq

/-- `SyncView.get`: computes the three-way delta per collection from the
cursor (`none` = `last_pulled_at` absent, treated as `datetime.min`).
The handler performs no store writes, so the store is returned
unchanged alongside the response. -/
def pullApp (s : Store) (cursor : Option Int) (now : Int) : AppPullResponse × Store :=
  let c := cursor.getD minTs
  (⟨⟨((s.projects.filter (fun r => createdB r.created_at r.deleted_at c)).map serializeProject),
     ((s.projects.filter (fun r => updatedB r.updated_at r.created_at r.deleted_at c)).map serializeProject),
     ((s.projects.filter (fun r => deletedB r.deleted_at c)).map (fun r => r.id))⟩,
    ⟨((s.tasks.filter (fun r => createdB r.created_at r.deleted_at c)).map serializeTask),
     ((s.tasks.filter (fun r => updatedB r.updated_at r.created_at r.deleted_at c)).map serializeTask),
     ((s.tasks.filter (fun r => deletedB r.deleted_at c)).map (fun r => r.id))⟩,
    now⟩, s)

/-- The body of `UserProfileSyncView.get`'s response. -/
structure UserPullResponse where
  users : CollectionDelta Nat
  student_profiles : CollectionDelta String
  timestamp : Int
deriving DecidableEq

/-- `UserProfileSyncView.get`: same delta computation over the `User`
and `StudentProfile` tables; no store writes. -/
def pullUserApp (s : UserStore) (cursor : Option Int) (now : Int) : UserPullResponse × UserStore :=
  let c := cursor.getD minTs
  (⟨⟨((s.users.filter (fun r => createdB r.created_at r.deleted_at c)).map serializeUser),
     ((s.users.filter (fun r => updatedB r.updated_at r.created_at r.deleted_at c)).map serializeUser),
     ((s.users.filter (fun r => deletedB r.deleted_at c)).map (fun r => r.id))⟩,
    ⟨((s.profiles.filter (fun r => createdB r.created_at r.deleted_at c)).map serializeStudentProfile),
     ((s.profiles.filter (fun r => updatedB r.updated_at r.created_at r.deleted_at c)).map serializeStudentProfile),
     ((s.profiles.filter (fun r => deletedB r.deleted_at c)).map (fun r => r.id))⟩,
    now⟩, s)

/-! ### Push: `SyncView.post` / `SyncView._apply_changes` -/

/-- `Project.objects.get(id=i)` over all rows (soft-deleted included). -/
def getProject (s : Store) (i : String) : Option ProjectRec :=
  s.projects.find? (fun r => r.id == i)

/-- `Task.objects.get(id=i)` over all rows (soft-deleted included). -/
def getTask (s : Store) (i : String) : Option TaskRec :=
  s.tasks.find? (fun r => r.id == i)

/-- Whether some `Project` row (live or tombstoned) already has this pk;
DRF's `UniqueValidator` on the pk queries all rows. -/
def projectIdTaken (s : Store) (i : String) : Bool :=
  s.projects.any (fun r => r.id == i)

/-- Whether some `Task` row (live or tombstoned) already has this pk. -/
def taskIdTaken (s : Store) (i : String) : Bool :=
  s.tasks.any (fun r => r.id == i)

/-- `name = CharField(max_length=100)`: required, non-blank, bounded. -/
def validName (s : String) : Bool :=
  (!(s == "")) && decide (s.length ≤ 100)

/-- `title = CharField(max_length=200)`: required, non-blank, bounded. -/
def validTitle (s : String) : Bool :=
  (!(s == "")) && decide (s.length ≤ 200)

/-- A `created` payload for `projects`.  `lead_task = none` means the
key is absent from the JSON object, `some none` that it is present
with value null, `some (some t)` that it is present with id `t`. -/
structure ProjectPayload where
  id : String
  name : String
  lead_task : Option (Option String)
deriving DecidableEq

/-- A `created` payload for `tasks`; `project` as in `ProjectPayload`. -/
structure TaskPayload where
  id : String
  title : String
  project : Option (Option String)
deriving DecidableEq

/-- An `updated` payload for `projects`: partial update, each field
present or absent (`lead_task` additionally nullable when present). -/
structure ProjectUpdate where
  id : String
  name : Option String
  lead_task : Option (Option String)
deriving DecidableEq

/-- An `updated` payload for `tasks`. -/
structure TaskUpdate where
  id : String
  title : Option String
  project : Option (Option String)
deriving DecidableEq

/-- One collection's change set in a Push body. -/
structure ProjectChanges where
  created : List ProjectPayload
  updated : List ProjectUpdate
  deleted : List String
deriving DecidableEq

/-- One collection's change set in a Push body. -/
structure TaskChanges where
  created : List TaskPayload
  updated : List TaskUpdate
  deleted : List String
deriving DecidableEq

/-- Step 1 of `_apply_changes` for one item: build `item_data` without
`lead_task`, validate (`ProjectSerializer`: pk uniqueness, `name`
constraints), and on success insert the bare row with `auto_now_add` /
`auto_now` timestamps and no foreign key. -/
def createProjectStep (now : Int) (acc : Store × List String) (p : ProjectPayload) : Store × List String :=
  let s := acc.1
  let errs := acc.2
  if (!(projectIdTaken s p.id)) && validName p.name then
    ({ s with projects := s.projects ++ [⟨p.id, p.name, none, now, now, none⟩] }, errs)
  else
    (s, errs ++ ["Project creation failed for ID " ++ p.id ++ ": (serializer errors)"])

/-- Step 2 of `_apply_changes` for one item: as `createProjectStep`,
with `project` stripped from the task payload. -/
def createTaskStep (now : Int) (acc : Store × List String) (p : TaskPayload) : Store × List String :=
  let s := acc.1
  let errs := acc.2
  if (!(taskIdTaken s p.id)) && validTitle p.title then
    ({ s with tasks := s.tasks ++ [⟨p.id, p.title, none, now, now, none⟩] }, errs)
  else
    (s, errs ++ ["Task creation failed for ID " ++ p.id ++ ": (serializer errors)"])

/-- `Task.objects.get(id=v)` for the raw JSON value of a foreign-key
field: `get(id=None)` raises `DoesNotExist`, i.e. resolves to nothing. -/
def resolveTaskRef (s : Store) (v : Option String) : Option TaskRec :=
  match v with
  | none => none
  | some t => getTask s t

/-- `Project.objects.get(id=v)` for the raw JSON value of a
foreign-key field; `get(id=None)` resolves to nothing. -/
def resolveProjectRef (s : Store) (v : Option String) : Option ProjectRec :=
  match v with
  | none => none
  | some pr => getProject s pr

/-- Step 3 of `_apply_changes` for one item: if the original payload
contained `lead_task`, re-fetch the project by id, fetch the referenced
task (`get(id=None)` raises `DoesNotExist` when the value was null),
set the foreign key and save (refreshing `updated_at`).  Failures are
collected as linkage errors. -/
def linkProjectStep (now : Int) (acc : Store × List String) (p : ProjectPayload) : Store × List String :=
  match p.lead_task with
  | none => acc
  | some v =>
    let s := acc.1
    let errs := acc.2
    match getProject s p.id with
    | none =>
      (s, errs ++ ["Failed to set lead_task for project " ++ p.id ++ ": Project matching query does not exist."])
    | some _ =>
      match resolveTaskRef s v with
      | none =>
        (s, errs ++ ["Failed to set lead_task for project " ++ p.id ++ ": Task matching query does not exist."])
      | some t =>
        ({ s with projects := s.projects.map (fun r =>
            if r.id == p.id then { r with lead_task := some t.id, updated_at := now } else r) },
         errs)

/-- Step 4 of `_apply_changes` for one item: the mirror of
`linkProjectStep` for a task's `project` foreign key. -/
def linkTaskStep (now : Int) (acc : Store × List String) (p : TaskPayload) : Store × List String :=
  match p.project with
  | none => acc
  | some v =>
    let s := acc.1
    let errs := acc.2
    match getTask s p.id with
    | none =>
      (s, errs ++ ["Failed to set project for task " ++ p.id ++ ": Task matching query does not exist."])
    | some _ =>
      match resolveProjectRef s v with
      | none =>
        (s, errs ++ ["Failed to set project for task " ++ p.id ++ ": Project matching query does not exist."])
      | some pr =>
        ({ s with tasks := s.tasks.map (fun r =>
            if r.id == p.id then { r with project := some pr.id, updated_at := now } else r) },
         errs)

/-- `_apply_updated` for one `projects` item: `Project.objects.get` by
id over all rows (a tombstoned row is found like any other), then a
partial-update serializer: fields present are validated
(`PrimaryKeyRelatedField(queryset=Task.objects.all(), allow_null=True)`
for `lead_task`) and written, absent fields are untouched, and the
save refreshes `updated_at`. -/
def updateProjectStep (now : Int) (acc : Store × List String) (u : ProjectUpdate) : Store × List String :=
  let s := acc.1
  let errs := acc.2
  match getProject s u.id with
  | none => (s, errs ++ ["Project " ++ u.id ++ " does not exist"])
  | some _ =>
    let nameOk := match u.name with
      | none => true
      | some n => validName n
    let fkOk := match u.lead_task with
      | none => true
      | some none => true
      | some (some t) => taskIdTaken s t
    if nameOk && fkOk then
      ({ s with projects := s.projects.map (fun r =>
          if r.id == u.id then
            { r with name := u.name.getD r.name,
                     lead_task := u.lead_task.getD r.lead_task,
                     updated_at := now }
          else r) },
       errs)
    else
      (s, errs ++ ["Update failed for Project " ++ u.id ++ ": (serializer errors)"])

/-- `_apply_updated` for one `tasks` item. -/
def updateTaskStep (now : Int) (acc : Store × List String) (u : TaskUpdate) : Store × List String :=
  let s := acc.1
  let errs := acc.2
  match getTask s u.id with
  | none => (s, errs ++ ["Task " ++ u.id ++ " does not exist"])
  | some _ =>
    let titleOk := match u.title with
      | none => true
      | some n => validTitle n
    let fkOk := match u.project with
      | none => true
      | some none => true
      | some (some pr) => projectIdTaken s pr
    if titleOk && fkOk then
      ({ s with tasks := s.tasks.map (fun r =>
          if r.id == u.id then
            { r with title := u.title.getD r.title,
                     project := u.project.getD r.project,
                     updated_at := now }
          else r) },
       errs)
    else
      (s, errs ++ ["Update failed for Task " ++ u.id ++ ": (serializer errors)"])

/-- `_apply_deleted` for one `projects` id: fetch over all rows, set
`deleted_at = timezone.now()` and save (`auto_now` refreshes
`updated_at`); a missing id yields a not-found error. -/
def deleteProjectStep (now : Int) (acc : Store × List String) (i : String) : Store × List String :=
  let s := acc.1
  let errs := acc.2
  match getProject s i with
  | none => (s, errs ++ ["Project " ++ i ++ " does not exist"])
  | some _ =>
    ({ s with projects := s.projects.map (fun r =>
        if r.id == i then { r with deleted_at := some now, updated_at := now } else r) },
     errs)

/-- `_apply_deleted` for one `tasks` id. -/
def deleteTaskStep (now : Int) (acc : Store × List String) (i : String) : Store × List String :=
  let s := acc.1
  let errs := acc.2
  match getTask s i with
  | none => (s, errs ++ ["Task " ++ i ++ " does not exist"])
  | some _ =>
    ({ s with tasks := s.tasks.map (fun r =>
        if r.id == i then { r with deleted_at := some now, updated_at := now } else r) },
     errs)

/-- `SyncView._apply_changes`: Step 1 creates all projects bare, Step 2
creates all tasks bare, Steps 3–4 run the linkage passes, Step 5 applies
updates then deletions, accumulating per-item errors throughout. -/
def applyChanges (s : Store) (pc : ProjectChanges) (tc : TaskChanges) (now : Int) : Store × List String :=
  let a1 := pc.created.foldl (createProjectStep now) (s, [])
  let a2 := tc.created.foldl (createTaskStep now) a1
  let a3 := pc.created.foldl (linkProjectStep now) a2
  let a4 := tc.created.foldl (linkTaskStep now) a3
  let a5 := pc.updated.foldl (updateProjectStep now) a4
  let a6 := tc.updated.foldl (updateTaskStep now) a5
  let a7 := pc.deleted.foldl (deleteProjectStep now) a6
  tc.deleted.foldl (deleteTaskStep now) a7

/-- The collection-order-swapped variant of `_apply_changes`: the
`tasks` `created` list is processed first in the bare-creation phase
and in the linkage phase.  Only used to state order-independence of
the cycle-resolution protocol; every phase still completes for all
collections before the next begins. -/
def applyChangesTasksFirst (s : Store) (pc : ProjectChanges) (tc : TaskChanges) (now : Int) : Store × List String :=
  let a1 := tc.created.foldl (createTaskStep now) (s, [])
  let a2 := pc.created.foldl (createProjectStep now) a1
  let a3 := tc.created.foldl (linkTaskStep now) a2
  let a4 := pc.created.foldl (linkProjectStep now) a3
  let a5 := tc.updated.foldl (updateTaskStep now) a4
  let a6 := pc.updated.foldl (updateProjectStep now) a5
  let a7 := tc.deleted.foldl (deleteTaskStep now) a6
  pc.deleted.foldl (deleteProjectStep now) a7

/-- `SyncView.post`: runs `_apply_changes` inside `transaction.atomic()`.
Per-item errors are collected, never raised, so the transaction always
commits; the response status is 400 when the error list is non-empty
and 200 otherwise. -/
def postApp (s : Store) (pc : ProjectChanges) (tc : TaskChanges) (now : Int) : Store × List String × Nat :=
  let a := applyChanges s pc tc now
  (a.1, a.2, if a.2 = [] then 200 else 400)

/-! ### Push on the user app: `UserProfileSyncView._apply_updates` and
`_apply_deletions`, instantiated at `User`. -/

/-- `User.objects.get(id=i)` over all rows. -/
def getUser (users : List UserRec) (i : Nat) : Option UserRec :=
  users.find? (fun r => r.id == i)

/-- An `updated` payload for `users`.  `UserSerializer`'s writable
fields are `username`, `email`, `first_name`, `last_name` and
`deleted_at` (the timestamps are `auto_now`-style and the integer pk is
an `AutoField`, both read-only); `deleted_at` is nullable, so `some
none` sets it to null. -/
structure UserUpdate where
  id : Nat
  username : Option String
  email : Option String
  first_name : Option String
  last_name : Option String
  deleted_at : Option (Option Int)
deriving DecidableEq

/-- `username = CharField(max_length=150, unique=True)`: when present
it must be non-blank, bounded, and not taken by a different row
(DRF's `UniqueValidator` excludes the instance being updated). -/
def validUsername (users : List UserRec) (selfId : Nat) (n : String) : Bool :=
  (!(n == "")) && decide (n.length ≤ 150) &&
    (!(users.any (fun x => x.username == n && (!(x.id == selfId)))))

/-- `EmailField(blank=True)`: abstraction of the format check — blank
or containing an at-sign. -/
def validEmail (e : String) : Bool :=
  (e == "") || e.contains '@'

/-- `first_name` / `last_name = CharField(max_length=150, blank=True)`. -/
def validShortName (n : String) : Bool :=
  decide (n.length ≤ 150)

/-- `UserProfileSyncView._apply_updates` for one `users` item: fetch by
id over all rows, validate the fields present, write them (including
`deleted_at`, which the serializer exposes as a writable nullable
field) and refresh `updated_at`.  Every exception is caught generically
as an "Unexpected error". -/
def updateUserStep (now : Int) (acc : List UserRec × List String) (u : UserUpdate) : List UserRec × List String :=
  let users := acc.1
  let errs := acc.2
  match getUser users u.id with
  | none =>
    (users, errs ++ ["Unexpected error updating User " ++ toString u.id ++ ": User matching query does not exist."])
  | some _ =>
    let ok := (match u.username with
        | none => true
        | some n => validUsername users u.id n) &&
      (match u.email with
        | none => true
        | some e => validEmail e) &&
      (match u.first_name with
        | none => true
        | some n => validShortName n) &&
      (match u.last_name with
        | none => true
        | some n => validShortName n)
    if ok then
      (users.map (fun r =>
          if r.id == u.id then
            { r with username := u.username.getD r.username,
                     email := u.email.getD r.email,
                     first_name := u.first_name.getD r.first_name,
                     last_name := u.last_name.getD r.last_name,
                     deleted_at := u.deleted_at.getD r.deleted_at,
                     updated_at := now }
          else r),
       errs)
    else
      (users, errs ++ ["Update failed for User " ++ toString u.id ++ ": (serializer errors)"])

/-- `UserProfileSyncView._apply_updates` over a list of `users` items. -/
def applyUserUpdates (users : List UserRec) (items : List UserUpdate) (now : Int) : List UserRec × List String :=
  items.foldl (updateUserStep now) (users, [])

/-- `UserProfileSyncView._apply_deletions` for one `users` id. -/
def deleteUserStep (now : Int) (acc : List UserRec × List String) (i : Nat) : List UserRec × List String :=
  let users := acc.1
  let errs := acc.2
  match getUser users i with
  | none =>
    (users, errs ++ ["Unexpected error deleting User " ++ toString i ++ ": User matching query does not exist."])
  | some _ =>
    (users.map (fun r =>
        if r.id == i then { r with deleted_at := some now, updated_at := now } else r),
     errs)

/-- `UserProfileSyncView._apply_deletions` over a list of `users` ids. -/
def applyUserDeletions (users : List UserRec) (ids : List Nat) (now : Int) : List UserRec × List String :=
  ids.foldl (deleteUserStep now) (users, [])

/-- `SyncView._apply_updated(items, ProjectSerializer, 'lead_task')`:
the update phase over a list of `projects` items, starting from an
empty error list as in the source. -/
def applyUpdatedProjects (s : Store) (items : List ProjectUpdate) (now : Int) : Store × List String :=
  items.foldl (updateProjectStep now) (s, [])

/-- `SyncView._apply_deleted(ids, Task)`: the deletion phase over a
list of `tasks` ids. -/
def applyDeletedTasks (s : Store) (ids : List String) (now : Int) : Store × List String :=
  ids.foldl (deleteTaskStep now) (s, [])

/-- A row transformer that keeps the primary key and never clears a
tombstone (`projects` table). -/
def keepsTombP (G : ProjectRec → ProjectRec) : Prop :=
  (∀ r, (G r).id = r.id) ∧
    (∀ r, r.deleted_at.isSome = true → ((G r).deleted_at).isSome = true)

/-- A row transformer that keeps the primary key and never clears a
tombstone (`tasks` table). -/
def keepsTombT (G : TaskRec → TaskRec) : Prop :=
  (∀ r, (G r).id = r.id) ∧
    (∀ r, r.deleted_at.isSome = true → ((G r).deleted_at).isSome = true)

/-- The `projects` table evolves by in-place row edits (through a
tombstone-preserving transformer) plus appended rows. -/
def tombExtP (l l' : List ProjectRec) : Prop :=
  ∃ G R, keepsTombP G ∧ l' = l.map G ++ R

/-- The `tasks` table evolves by in-place row edits plus appends. -/
def tombExtT (l l' : List TaskRec) : Prop :=
  ∃ G R, keepsTombT G ∧ l' = l.map G ++ R

/-- Both tables evolve tombstone-monotonically. -/
def TombMono (s s' : Store) : Prop :=
  tombExtP s.projects s'.projects ∧ tombExtT s.tasks s'.tasks

/-- Row well-formedness used for full-snapshot pulls: both server-set
timestamps come from `timezone.now()`, which is strictly above
`datetime.min`. -/
def wfRow (created_at : Int) (deleted_at : Option Int) : Bool :=
  decide (minTs < created_at) && deleted_at.all (fun d => decide (minTs < d))

/-- Well-formedness of the whole `watermelon_app` store. -/
def wfStore (s : Store) : Bool :=
  s.projects.all (fun r => wfRow r.created_at r.deleted_at) &&
    s.tasks.all (fun r => wfRow r.created_at r.deleted_at)

/-! ### Helper lemmas -/

theorem find?_append_of_none {α : Type} {l₁ l₂ : List α} {p : α → Bool}
    (h : ∀ x ∈ l₁, p x = false) : (l₁ ++ l₂).find? p = l₂.find? p := by
  rw [List.find?_append]
  have : l₁.find? p = none := List.find?_eq_none.2 (by simpa using h)
  rw [this, Option.none_or]

theorem map_if_id {α : Type} {l : List α} {p : α → Bool} {f : α → α}
    (h : ∀ x ∈ l, p x = false) :
    l.map (fun x => if p x then f x else x) = l := by
  have : l.map (fun x => if p x then f x else x) = l.map id :=
    List.map_congr_left (fun a ha => by simp [h a ha])
  simpa using this

theorem serializeProject_fields_eq {a b : ProjectRec}
    (h : serializeProject a = serializeProject b) :
    a.id = b.id ∧ a.created_at = b.created_at := by
  simp only [serializeProject, List.cons.injEq, Prod.mk.injEq, JVal.str.injEq,
    JVal.num.injEq, and_true, true_and, List.nil_eq] at h
  exact ⟨h.1, h.2.2.2.1⟩

theorem serializeTask_fields_eq {a b : TaskRec}
    (h : serializeTask a = serializeTask b) :
    a.id = b.id ∧ a.created_at = b.created_at := by
  simp only [serializeTask, List.cons.injEq, Prod.mk.injEq, JVal.str.injEq,
    JVal.num.injEq, and_true, true_and, List.nil_eq] at h
  exact ⟨h.1, h.2.2.2.1⟩

/-! ### Claims -/

/-- C9: a Pull (`SyncView.get`) performs no store writes: for every
store, cursor and read time, the store coming out of the handler is the
store that went in. -/
theorem c9_pull_has_no_side_effects :
    ∀ (s : Store) (cursor : Option Int) (now : Int),
      (pullApp s cursor now).2 = s := by
  intro s cursor now
  rfl

/-- C5: the three Pull classification predicates (`created_at > cursor ∧
deleted_at IS NULL`; `updated_at > cursor ∧ created_at ≤ cursor ∧
deleted_at IS NULL`; `deleted_at > cursor`) are pairwise disjoint, and
consequently, in a store with unique primary keys, a record appears in
at most one of the `created` / `updated` / `deleted` buckets of a
`SyncView.get` response. -/
theorem c5_pull_buckets_pairwise_disjoint
    (s : Store) (cursor : Option Int) (now : Int) (r : ProjectRec)
    (hnd : (s.projects.map (fun x => x.id)).Nodup) :
    (∀ (ua ca : Int) (da : Option Int) (c : Int),
        (createdB ca da c && updatedB ua ca da c) = false ∧
        (createdB ca da c && deletedB da c) = false ∧
        (updatedB ua ca da c && deletedB da c) = false) ∧
    (decide (serializeProject r ∈ (pullApp s cursor now).1.projects.created) &&
      decide (serializeProject r ∈ (pullApp s cursor now).1.projects.updated)) = false ∧
    (decide (serializeProject r ∈ (pullApp s cursor now).1.projects.created) &&
      decide (r.id ∈ (pullApp s cursor now).1.projects.deleted)) = false ∧
    (decide (serializeProject r ∈ (pullApp s cursor now).1.projects.updated) &&
      decide (r.id ∈ (pullApp s cursor now).1.projects.deleted)) = false := by
  have hcu : ¬(serializeProject r ∈ (pullApp s cursor now).1.projects.created ∧
      serializeProject r ∈ (pullApp s cursor now).1.projects.updated) := by
    rintro ⟨h1, h2⟩
    simp only [pullApp, List.mem_map, List.mem_filter] at h1 h2
    obtain ⟨r1, ⟨_, hp1⟩, hs1⟩ := h1
    obtain ⟨r2, ⟨_, hp2⟩, hs2⟩ := h2
    have e := serializeProject_fields_eq (hs1.trans hs2.symm)
    simp only [createdB, updatedB, Bool.and_eq_true, decide_eq_true_eq] at hp1 hp2
    omega
  have hcd : ¬(serializeProject r ∈ (pullApp s cursor now).1.projects.created ∧
      r.id ∈ (pullApp s cursor now).1.projects.deleted) := by
    rintro ⟨h1, h2⟩
    simp only [pullApp, List.mem_map, List.mem_filter] at h1 h2
    obtain ⟨r1, ⟨hm1, hp1⟩, hs1⟩ := h1
    obtain ⟨r2, ⟨hm2, hp2⟩, hs2⟩ := h2
    have e := serializeProject_fields_eq hs1
    have e12 : r1 = r2 := List.inj_on_of_nodup_map hnd hm1 hm2 (e.1.trans hs2.symm)
    simp only [createdB, Bool.and_eq_true, decide_eq_true_eq] at hp1
    rw [← e12, hp1.2] at hp2
    simp [deletedB] at hp2
  have hud : ¬(serializeProject r ∈ (pullApp s cursor now).1.projects.updated ∧
      r.id ∈ (pullApp s cursor now).1.projects.deleted) := by
    rintro ⟨h1, h2⟩
    simp only [pullApp, List.mem_map, List.mem_filter] at h1 h2
    obtain ⟨r1, ⟨hm1, hp1⟩, hs1⟩ := h1
    obtain ⟨r2, ⟨hm2, hp2⟩, hs2⟩ := h2
    have e := serializeProject_fields_eq hs1
    have e12 : r1 = r2 := List.inj_on_of_nodup_map hnd hm1 hm2 (e.1.trans hs2.symm)
    simp only [updatedB, Bool.and_eq_true, decide_eq_true_eq] at hp1
    rw [← e12, hp1.2] at hp2
    simp [deletedB] at hp2
  refine ⟨?_, ?_, ?_, ?_⟩
  · intro ua ca da c
    refine ⟨?_, ?_, ?_⟩ <;>
      cases da <;>
        simp only [createdB, updatedB, deletedB, Bool.and_eq_false_iff,
          decide_eq_false_iff_not, decide_eq_true_eq, Bool.and_eq_true,
          not_and, not_lt, not_le] <;>
        try simp <;>
        omega
  · simp only [Bool.and_eq_false_iff, decide_eq_false_iff_not]
    tauto
  · simp only [Bool.and_eq_false_iff, decide_eq_false_iff_not]
    tauto
  · simp only [Bool.and_eq_false_iff, decide_eq_false_iff_not]
    tauto

/-- C6: on a well-formed store (all server-assigned timestamps strictly
above `datetime.min`), a Pull with no cursor classifies every live
record of each collection as `created`, emits the id of every
tombstoned record in `deleted`, and returns empty `updated` buckets. -/
theorem c6_full_snapshot_pull (s : Store) (now : Int) (hwf : wfStore s = true) :
    ((pullApp s none now).1.projects.updated = [] ∧
      (pullApp s none now).1.tasks.updated = []) ∧
    (∀ r ∈ s.projects, r.deleted_at = none →
      serializeProject r ∈ (pullApp s none now).1.projects.created) ∧
    (∀ x ∈ (pullApp s none now).1.projects.created,
      ∃ r ∈ s.projects, r.deleted_at = none ∧ x = serializeProject r) ∧
    (∀ r ∈ s.projects, r.deleted_at ≠ none →
      r.id ∈ (pullApp s none now).1.projects.deleted) ∧
    (∀ i ∈ (pullApp s none now).1.projects.deleted,
      ∃ r ∈ s.projects, r.deleted_at ≠ none ∧ i = r.id) ∧
    (∀ r ∈ s.tasks, r.deleted_at = none →
      serializeTask r ∈ (pullApp s none now).1.tasks.created) ∧
    (∀ x ∈ (pullApp s none now).1.tasks.created,
      ∃ r ∈ s.tasks, r.deleted_at = none ∧ x = serializeTask r) ∧
    (∀ r ∈ s.tasks, r.deleted_at ≠ none →
      r.id ∈ (pullApp s none now).1.tasks.deleted) ∧
    (∀ i ∈ (pullApp s none now).1.tasks.deleted,
      ∃ r ∈ s.tasks, r.deleted_at ≠ none ∧ i = r.id) := by
  simp only [wfStore, Bool.and_eq_true, List.all_eq_true] at hwf
  obtain ⟨hwp, hwt⟩ := hwf
  have hwp' : ∀ r ∈ s.projects, minTs < r.created_at ∧
      ∀ d, r.deleted_at = some d → minTs < d := by
    intro r hr
    have := hwp r hr
    simp only [wfRow, Bool.and_eq_true, decide_eq_true_eq] at this
    obtain ⟨h1, h2⟩ := this
    exact ⟨h1, fun d hd => by rw [hd] at h2; simpa using h2⟩
  have hwt' : ∀ r ∈ s.tasks, minTs < r.created_at ∧
      ∀ d, r.deleted_at = some d → minTs < d := by
    intro r hr
    have := hwt r hr
    simp only [wfRow, Bool.and_eq_true, decide_eq_true_eq] at this
    obtain ⟨h1, h2⟩ := this
    exact ⟨h1, fun d hd => by rw [hd] at h2; simpa using h2⟩
  refine ⟨⟨?_, ?_⟩, ?_, ?_, ?_, ?_, ?_, ?_, ?_, ?_⟩
  · simp only [pullApp, Option.getD]
    exact List.map_eq_nil_iff.2 (List.filter_eq_nil_iff.2 (fun r hr => by
      simp only [updatedB, Bool.and_eq_true, decide_eq_true_eq, not_and]
      intro _ h
      exact absurd h (by have := (hwp' r hr).1; omega)))
  · simp only [pullApp, Option.getD]
    exact List.map_eq_nil_iff.2 (List.filter_eq_nil_iff.2 (fun r hr => by
      simp only [updatedB, Bool.and_eq_true, decide_eq_true_eq, not_and]
      intro _ h
      exact absurd h (by have := (hwt' r hr).1; omega)))
  · intro r hr hlive
    simp only [pullApp, Option.getD, List.mem_map]
    exact ⟨r, List.mem_filter.2 ⟨hr, by
      simp only [createdB, Bool.and_eq_true, decide_eq_true_eq]
      exact ⟨(hwp' r hr).1, hlive⟩⟩, rfl⟩
  · intro x hx
    simp only [pullApp, Option.getD, List.mem_map] at hx
    obtain ⟨r, hrf, hs⟩ := hx
    have := List.mem_filter.1 hrf
    simp only [createdB, Bool.and_eq_true, decide_eq_true_eq] at this
    exact ⟨r, this.1, this.2.2, hs.symm⟩
  · intro r hr htomb
    simp only [pullApp, Option.getD, List.mem_map]
    obtain ⟨d, hd⟩ := Option.ne_none_iff_exists'.1 htomb
    exact ⟨r, List.mem_filter.2 ⟨hr, by
      simp only [deletedB, hd, decide_eq_true_eq]
      exact (hwp' r hr).2 d hd⟩, rfl⟩
  · intro i hi
    simp only [pullApp, Option.getD, List.mem_map] at hi
    obtain ⟨r, hrf, hs⟩ := hi
    have := List.mem_filter.1 hrf
    refine ⟨r, this.1, ?_, hs.symm⟩
    have h2 := this.2
    cases hde : r.deleted_at with
    | none => rw [hde] at h2; simp [deletedB] at h2
    | some d => simp [hde]
  · intro r hr hlive
    simp only [pullApp, Option.getD, List.mem_map]
    exact ⟨r, List.mem_filter.2 ⟨hr, by
      simp only [createdB, Bool.and_eq_true, decide_eq_true_eq]
      exact ⟨(hwt' r hr).1, hlive⟩⟩, rfl⟩
  · intro x hx
    simp only [pullApp, Option.getD, List.mem_map] at hx
    obtain ⟨r, hrf, hs⟩ := hx
    have := List.mem_filter.1 hrf
    simp only [createdB, Bool.and_eq_true, decide_eq_true_eq] at this
    exact ⟨r, this.1, this.2.2, hs.symm⟩
  · intro r hr htomb
    simp only [pullApp, Option.getD, List.mem_map]
    obtain ⟨d, hd⟩ := Option.ne_none_iff_exists'.1 htomb
    exact ⟨r, List.mem_filter.2 ⟨hr, by
      simp only [deletedB, hd, decide_eq_true_eq]
      exact (hwt' r hr).2 d hd⟩, rfl⟩
  · intro i hi
    simp only [pullApp, Option.getD, List.mem_map] at hi
    obtain ⟨r, hrf, hs⟩ := hi
    have := List.mem_filter.1 hrf
    refine ⟨r, this.1, ?_, hs.symm⟩
    have h2 := this.2
    cases hde : r.deleted_at with
    | none => rw [hde] at h2; simp [deletedB] at h2
    | some d => simp [hde]

theorem projectIdTaken_false_forall {s : Store} {i : String}
    (h : projectIdTaken s i = false) : ∀ x ∈ s.projects, (x.id == i) = false := by
  simpa [projectIdTaken] using List.any_eq_false.1 h

theorem taskIdTaken_false_forall {s : Store} {i : String}
    (h : taskIdTaken s i = false) : ∀ x ∈ s.tasks, (x.id == i) = false := by
  simpa [taskIdTaken] using List.any_eq_false.1 h

/-- C10: a `created` project payload whose `lead_task` key is present
with value null passes bare creation (the key is stripped), but the
linkage pass then runs because the key was present, calls
`Task.objects.get(id=None)`, which raises `DoesNotExist`, and records a
linkage error — even though null is a permitted value for the nullable
foreign key.  The record itself is persisted with `lead_task` null. -/
theorem c10_null_fk_linkage_error
    (s : Store) (now : Int) (pid pname : String)
    (hfresh : projectIdTaken s pid = false)
    (hname : validName pname = true) :
    applyChanges s ⟨[⟨pid, pname, some none⟩], [], []⟩ ⟨[], [], []⟩ now =
      ({ s with projects := s.projects ++ [⟨pid, pname, none, now, now, none⟩] },
       ["Failed to set lead_task for project " ++ pid ++ ": Task matching query does not exist."]) := by
  have hforall := projectIdTaken_false_forall hfresh
  simp only [applyChanges, List.foldl_cons, List.foldl_nil]
  rw [show createProjectStep now (s, []) ⟨pid, pname, some none⟩ =
      ({ s with projects := s.projects ++ [⟨pid, pname, none, now, now, none⟩] }, []) from by
    simp [createProjectStep, hfresh, hname]]
  have hget : getProject { s with projects := s.projects ++ [⟨pid, pname, none, now, now, none⟩] } pid =
      some ⟨pid, pname, none, now, now, none⟩ := by
    unfold getProject
    simp only
    rw [find?_append_of_none hforall]
    simp [List.find?]
  simp [linkProjectStep, resolveTaskRef, hget]

/-- Witness for C10 at a concrete input. -/
theorem c10_null_fk_linkage_error_witness :
    projectIdTaken ⟨[], []⟩ "P1" = false ∧ validName "Alpha" = true ∧
    applyChanges ⟨[], []⟩ ⟨[⟨"P1", "Alpha", some none⟩], [], []⟩ ⟨[], [], []⟩ 100 =
      ({ projects := [⟨"P1", "Alpha", none, 100, 100, none⟩], tasks := [] },
       ["Failed to set lead_task for project P1: Task matching query does not exist."]) := by
  refine ⟨by decide, by decide, ?_⟩
  have h := c10_null_fk_linkage_error ⟨[], []⟩ 100 "P1" "Alpha" (by decide) (by decide)
  simpa using h

/-- C2 counterexample: the claim says a Push update targeting a
tombstoned record is rejected with a not-found error and leaves the
record unchanged.  On the code, `_apply_updated` fetches with
`Project.objects.get(id=...)`, which does not filter on `deleted_at`,
so the update of the tombstoned project `P1` below is applied silently:
the error list is empty and `name` changes from "old" to "new". -/
theorem c2_counterexample_tombstone_update_applied :
    applyUpdatedProjects ⟨[⟨"P1", "old", none, 0, 5, some 5⟩], []⟩
        [⟨"P1", some "new", none⟩] 10 =
      (⟨[⟨"P1", "new", none, 0, 10, some 5⟩], []⟩, []) := by
  decide

/-- C2 amended: an `updated` payload targeting a tombstoned record is
found by the unfiltered id lookup and silently applied — the fields
present in the payload are written, `updated_at` is refreshed,
`deleted_at` is preserved, and no error is reported.  Tombstoned
records receive no protocol-level protection from updates. -/
theorem c2_amended_tombstone_update_silently_applied
    (s : Store) (now : Int) (l1 l2 : List ProjectRec) (r : ProjectRec)
    (d : Int) (n : String)
    (hs : s.projects = l1 ++ r :: l2)
    (huniq : ∀ x ∈ l1 ++ l2, (x.id == r.id) = false)
    (htomb : r.deleted_at = some d)
    (hname : validName n = true) :
    applyUpdatedProjects s [⟨r.id, some n, none⟩] now =
      ({ s with projects := l1 ++ { r with name := n, updated_at := now } :: l2 }, []) ∧
    ({ r with name := n, updated_at := now } : ProjectRec).deleted_at = some d := by
  have hl1 : ∀ x ∈ l1, (x.id == r.id) = false :=
    fun x hx => huniq x (List.mem_append.2 (Or.inl hx))
  have hl2 : ∀ x ∈ l2, (x.id == r.id) = false :=
    fun x hx => huniq x (List.mem_append.2 (Or.inr hx))
  have hget : getProject s r.id = some r := by
    unfold getProject
    rw [hs, find?_append_of_none hl1]
    simp [List.find?]
  constructor
  · simp only [applyUpdatedProjects, List.foldl_cons, List.foldl_nil,
      updateProjectStep, hget]
    rw [if_pos (by simp [hname])]
    refine Prod.ext ?_ rfl
    simp only
    congr 1
    rw [hs, List.map_append, List.map_cons, map_if_id hl1, map_if_id hl2]
    simp
  · simpa using htomb

/-- Witness for the amended C2 at a concrete input. -/
theorem c2_amended_witness :
    (⟨[⟨"P1", "old", none, 0, 5, some 5⟩], []⟩ : Store).projects =
        [] ++ (⟨"P1", "old", none, 0, 5, some 5⟩ : ProjectRec) :: [] ∧
    validName "new" = true ∧
    applyUpdatedProjects ⟨[⟨"P1", "old", none, 0, 5, some 5⟩], []⟩
        [⟨"P1", some "new", none⟩] 10 =
      (⟨[⟨"P1", "new", none, 0, 10, some 5⟩], []⟩, []) := by
  refine ⟨by decide, by decide, ?_⟩
  have h := c2_amended_tombstone_update_silently_applied
    ⟨[⟨"P1", "old", none, 0, 5, some 5⟩], []⟩ 10 [] []
    ⟨"P1", "old", none, 0, 5, some 5⟩ 5 "new" (by decide) (by decide)
    (by decide) (by decide)
  simpa using h.1

theorem tombExtP_refl (l : List ProjectRec) : tombExtP l l :=
  ⟨id, [], ⟨fun _ => rfl, fun _ h => h⟩, by simp⟩

theorem tombExtT_refl (l : List TaskRec) : tombExtT l l :=
  ⟨id, [], ⟨fun _ => rfl, fun _ h => h⟩, by simp⟩

theorem tombExtP_trans {l1 l2 l3 : List ProjectRec}
    (h12 : tombExtP l1 l2) (h23 : tombExtP l2 l3) : tombExtP l1 l3 := by
  obtain ⟨G, R, ⟨hid, ht⟩, rfl⟩ := h12
  obtain ⟨G', R', ⟨hid', ht'⟩, rfl⟩ := h23
  refine ⟨G' ∘ G, R.map G' ++ R',
    ⟨fun r => (hid' (G r)).trans (hid r),
     fun r h => ht' (G r) (ht r h)⟩, ?_⟩
  simp [List.map_append, List.map_map, List.append_assoc]

theorem tombExtT_trans {l1 l2 l3 : List TaskRec}
    (h12 : tombExtT l1 l2) (h23 : tombExtT l2 l3) : tombExtT l1 l3 := by
  obtain ⟨G, R, ⟨hid, ht⟩, rfl⟩ := h12
  obtain ⟨G', R', ⟨hid', ht'⟩, rfl⟩ := h23
  refine ⟨G' ∘ G, R.map G' ++ R',
    ⟨fun r => (hid' (G r)).trans (hid r),
     fun r h => ht' (G r) (ht r h)⟩, ?_⟩
  simp [List.map_append, List.map_map, List.append_assoc]

theorem tombExtP_append (l a : List ProjectRec) : tombExtP l (l ++ a) :=
  ⟨id, a, ⟨fun _ => rfl, fun _ h => h⟩, by simp⟩

theorem tombExtT_append (l a : List TaskRec) : tombExtT l (l ++ a) :=
  ⟨id, a, ⟨fun _ => rfl, fun _ h => h⟩, by simp⟩

theorem tombExtP_map (l : List ProjectRec) {g : ProjectRec → ProjectRec}
    (hg : keepsTombP g) : tombExtP l (l.map g) :=
  ⟨g, [], hg, by simp⟩

theorem tombExtT_map (l : List TaskRec) {g : TaskRec → TaskRec}
    (hg : keepsTombT g) : tombExtT l (l.map g) :=
  ⟨g, [], hg, by simp⟩

theorem tombMono_refl (s : Store) : TombMono s s :=
  ⟨tombExtP_refl _, tombExtT_refl _⟩

theorem tombMono_trans {s1 s2 s3 : Store}
    (h12 : TombMono s1 s2) (h23 : TombMono s2 s3) : TombMono s1 s3 :=
  ⟨tombExtP_trans h12.1 h23.1, tombExtT_trans h12.2 h23.2⟩

theorem tombMono_createProjectStep (now : Int) (acc : Store × List String) (p : ProjectPayload) :
    TombMono acc.1 (createProjectStep now acc p).1 := by
  unfold createProjectStep
  dsimp only
  split
  · exact ⟨tombExtP_append _ _, tombExtT_refl _⟩
  · exact tombMono_refl _

theorem tombMono_createTaskStep (now : Int) (acc : Store × List String) (p : TaskPayload) :
    TombMono acc.1 (createTaskStep now acc p).1 := by
  unfold createTaskStep
  dsimp only
  split
  · exact ⟨tombExtP_refl _, tombExtT_append _ _⟩
  · exact tombMono_refl _

theorem tombMono_linkProjectStep (now : Int) (acc : Store × List String) (p : ProjectPayload) :
    TombMono acc.1 (linkProjectStep now acc p).1 := by
  unfold linkProjectStep
  dsimp only
  repeat' split
  all_goals try exact tombMono_refl _
  refine ⟨tombExtP_map _ ⟨fun r => ?_, fun r hh => ?_⟩, tombExtT_refl _⟩
  · by_cases hc : (r.id == p.id) = true <;> simp [hc]
  · by_cases hc : (r.id == p.id) = true <;> simp [hc] <;> simpa using hh

theorem tombMono_linkTaskStep (now : Int) (acc : Store × List String) (p : TaskPayload) :
    TombMono acc.1 (linkTaskStep now acc p).1 := by
  unfold linkTaskStep
  dsimp only
  repeat' split
  all_goals try exact tombMono_refl _
  refine ⟨tombExtP_refl _, tombExtT_map _ ⟨fun r => ?_, fun r hh => ?_⟩⟩
  · by_cases hc : (r.id == p.id) = true <;> simp [hc]
  · by_cases hc : (r.id == p.id) = true <;> simp [hc] <;> simpa using hh

theorem tombMono_updateProjectStep (now : Int) (acc : Store × List String) (u : ProjectUpdate) :
    TombMono acc.1 (updateProjectStep now acc u).1 := by
  unfold updateProjectStep
  dsimp only
  repeat' split
  all_goals try exact tombMono_refl _
  all_goals
    refine ⟨tombExtP_map _ ⟨fun r => ?_, fun r hh => ?_⟩, tombExtT_refl _⟩
  all_goals by_cases hc : (r.id == u.id) = true
  all_goals simp [hc]
  all_goals simpa using hh

theorem tombMono_updateTaskStep (now : Int) (acc : Store × List String) (u : TaskUpdate) :
    TombMono acc.1 (updateTaskStep now acc u).1 := by
  unfold updateTaskStep
  dsimp only
  repeat' split
  all_goals try exact tombMono_refl _
  all_goals
    refine ⟨tombExtP_refl _, tombExtT_map _ ⟨fun r => ?_, fun r hh => ?_⟩⟩
  all_goals by_cases hc : (r.id == u.id) = true
  all_goals simp [hc]
  all_goals simpa using hh

theorem tombMono_deleteProjectStep (now : Int) (acc : Store × List String) (i : String) :
    TombMono acc.1 (deleteProjectStep now acc i).1 := by
  unfold deleteProjectStep
  dsimp only
  split
  · exact tombMono_refl _
  · refine ⟨tombExtP_map _ ⟨fun r => ?_, fun r hh => ?_⟩, tombExtT_refl _⟩
    · by_cases hc : (r.id == i) = true <;> simp [hc]
    · by_cases hc : (r.id == i) = true <;> simp [hc] <;> simpa using hh

theorem tombMono_deleteTaskStep (now : Int) (acc : Store × List String) (i : String) :
    TombMono acc.1 (deleteTaskStep now acc i).1 := by
  unfold deleteTaskStep
  dsimp only
  split
  · exact tombMono_refl _
  · refine ⟨tombExtP_refl _, tombExtT_map _ ⟨fun r => ?_, fun r hh => ?_⟩⟩
    · by_cases hc : (r.id == i) = true <;> simp [hc]
    · by_cases hc : (r.id == i) = true <;> simp [hc] <;> simpa using hh

theorem foldl_tombMono {α : Type} (step : (Store × List String) → α → (Store × List String))
    (hstep : ∀ acc x, TombMono acc.1 (step acc x).1) :
    ∀ (items : List α) (acc : Store × List String),
      TombMono acc.1 (items.foldl step acc).1 := by
  intro items
  induction items with
  | nil => exact fun acc => tombMono_refl _
  | cons x xs ih =>
    intro acc
    exact tombMono_trans (hstep acc x) (ih (step acc x))

theorem tombMono_applyChanges (s : Store) (pc : ProjectChanges) (tc : TaskChanges) (now : Int) :
    TombMono s (applyChanges s pc tc now).1 := by
  unfold applyChanges
  exact tombMono_trans
    (tombMono_trans
      (tombMono_trans
        (tombMono_trans
          (tombMono_trans
            (tombMono_trans
              (tombMono_trans
                (foldl_tombMono _ (tombMono_createProjectStep now) pc.created (s, []))
                (foldl_tombMono _ (tombMono_createTaskStep now) tc.created _))
              (foldl_tombMono _ (tombMono_linkProjectStep now) pc.created _))
            (foldl_tombMono _ (tombMono_linkTaskStep now) tc.created _))
          (foldl_tombMono _ (tombMono_updateProjectStep now) pc.updated _))
        (foldl_tombMono _ (tombMono_updateTaskStep now) tc.updated _))
      (foldl_tombMono _ (tombMono_deleteProjectStep now) pc.deleted _))
    (foldl_tombMono _ (tombMono_deleteTaskStep now) tc.deleted _)

/-- C3 counterexample: the claim says no Push operation in any
collection ever resets a non-null `deleted_at` to null.  In
`watermelon_user`, `UserSerializer` lists `deleted_at` among its
writable fields, so an `updated` payload carrying `deleted_at: null`
for the tombstoned user below is applied by `_apply_updates`,
resurrecting the record (`deleted_at` becomes null, no error). -/
theorem c3_counterexample_user_resurrection :
    applyUserUpdates [⟨1, "u", "e", "f", "l", 0, 5, some 5⟩]
        [⟨1, none, none, none, none, some none⟩] 10 =
      ([⟨1, "u", "e", "f", "l", 0, 10, none⟩], []) := by
  decide

/-- C3 amended: in `watermelon_app` (projects and tasks), whose
serializers do not expose `deleted_at`, deletion is terminal: any
record tombstoned before a Push batch still has a non-null
`deleted_at` (under its id) after `_apply_changes`, whatever the
batch.  In `watermelon_user` the property fails, because
`UserSerializer` and `StudentProfileSerializer` expose `deleted_at` as
a writable field and an update payload with `deleted_at: null`
resurrects the record (see the counterexample). -/
theorem c3_amended_app_deletion_terminal
    (s : Store) (pc : ProjectChanges) (tc : TaskChanges) (now : Int) :
    (∀ r ∈ s.projects, r.deleted_at.isSome = true →
      ∃ r' ∈ (applyChanges s pc tc now).1.projects,
        r'.id = r.id ∧ r'.deleted_at.isSome = true) ∧
    (∀ r ∈ s.tasks, r.deleted_at.isSome = true →
      ∃ r' ∈ (applyChanges s pc tc now).1.tasks,
        r'.id = r.id ∧ r'.deleted_at.isSome = true) := by
  obtain ⟨⟨G, R, ⟨hid, ht⟩, hEq⟩, ⟨G', R', ⟨hid', ht'⟩, hEq'⟩⟩ :=
    tombMono_applyChanges s pc tc now
  constructor
  · intro r hr hsome
    refine ⟨G r, ?_, hid r, ht r hsome⟩
    rw [hEq]
    exact List.mem_append.2 (Or.inl (List.mem_map.2 ⟨r, hr, rfl⟩))
  · intro r hr hsome
    refine ⟨G' r, ?_, hid' r, ht' r hsome⟩
    rw [hEq']
    exact List.mem_append.2 (Or.inl (List.mem_map.2 ⟨r, hr, rfl⟩))

/-- Witness for the amended C3 at a concrete input. -/
theorem c3_amended_witness :
    (⟨"P1", "x", none, 0, 5, some 5⟩ : ProjectRec) ∈
        ([⟨"P1", "x", none, 0, 5, some 5⟩] : List ProjectRec) ∧
    ((some (5 : Int)).isSome = true) ∧
    ∃ r' ∈ (applyChanges ⟨[⟨"P1", "x", none, 0, 5, some 5⟩], []⟩
        ⟨[], [], []⟩ ⟨[], [], []⟩ 9).1.projects,
      r'.id = "P1" ∧ r'.deleted_at.isSome = true := by
  refine ⟨by decide, by decide, ?_⟩
  exact (c3_amended_app_deletion_terminal
    ⟨[⟨"P1", "x", none, 0, 5, some 5⟩], []⟩ ⟨[], [], []⟩ ⟨[], [], []⟩ 9).1
    ⟨"P1", "x", none, 0, 5, some 5⟩ (by decide) (by decide)

/-- C1: a single Push batch creating one project and one task that
reference each other (`lead_task` / `project`) ends with both foreign
keys resolved to the other created record and an empty error list, and
the outcome is identical when the `tasks` collection's `created` list
is processed first — bare creation of all created payloads precedes
every linkage pass, which is what breaks the cycle. -/
theorem c1_cycle_resolution
    (s : Store) (now : Int) (P T nm tl : String)
    (hp : projectIdTaken s P = false)
    (ht : taskIdTaken s T = false)
    (hn : validName nm = true)
    (htt : validTitle tl = true) :
    applyChanges s ⟨[⟨P, nm, some (some T)⟩], [], []⟩ ⟨[⟨T, tl, some (some P)⟩], [], []⟩ now =
      (⟨s.projects ++ [⟨P, nm, some T, now, now, none⟩],
        s.tasks ++ [⟨T, tl, some P, now, now, none⟩]⟩, []) ∧
    applyChangesTasksFirst s ⟨[⟨P, nm, some (some T)⟩], [], []⟩ ⟨[⟨T, tl, some (some P)⟩], [], []⟩ now =
      applyChanges s ⟨[⟨P, nm, some (some T)⟩], [], []⟩ ⟨[⟨T, tl, some (some P)⟩], [], []⟩ now := by
  have hforallP := projectIdTaken_false_forall hp
  have hforallT := taskIdTaken_false_forall ht
  have hgp0 : ∀ tk : List TaskRec,
      getProject ⟨s.projects ++ [⟨P, nm, none, now, now, none⟩], tk⟩ P =
        some ⟨P, nm, none, now, now, none⟩ := by
    intro tk
    unfold getProject
    dsimp only
    rw [find?_append_of_none hforallP]
    simp [List.find?]
  have hgp1 : ∀ tk : List TaskRec,
      getProject ⟨s.projects ++ [⟨P, nm, some T, now, now, none⟩], tk⟩ P =
        some ⟨P, nm, some T, now, now, none⟩ := by
    intro tk
    unfold getProject
    dsimp only
    rw [find?_append_of_none hforallP]
    simp [List.find?]
  have hgt0 : ∀ pj : List ProjectRec,
      getTask ⟨pj, s.tasks ++ [⟨T, tl, none, now, now, none⟩]⟩ T =
        some ⟨T, tl, none, now, now, none⟩ := by
    intro pj
    unfold getTask
    dsimp only
    rw [find?_append_of_none hforallT]
    simp [List.find?]
  have hgt1 : ∀ pj : List ProjectRec,
      getTask ⟨pj, s.tasks ++ [⟨T, tl, some P, now, now, none⟩]⟩ T =
        some ⟨T, tl, some P, now, now, none⟩ := by
    intro pj
    unfold getTask
    dsimp only
    rw [find?_append_of_none hforallT]
    simp [List.find?]
  have hmapP : ∀ v : Option String,
      (s.projects ++ ([⟨P, nm, v, now, now, none⟩] : List ProjectRec)).map (fun r : ProjectRec =>
          if r.id == P then { r with lead_task := some T, updated_at := now } else r) =
        s.projects ++ [⟨P, nm, some T, now, now, none⟩] := by
    intro v
    rw [List.map_append, map_if_id hforallP]
    simp
  have hmapT : ∀ v : Option String,
      (s.tasks ++ ([⟨T, tl, v, now, now, none⟩] : List TaskRec)).map (fun r : TaskRec =>
          if r.id == T then { r with project := some P, updated_at := now } else r) =
        s.tasks ++ [⟨T, tl, some P, now, now, none⟩] := by
    intro v
    rw [List.map_append, map_if_id hforallT]
    simp
  have e1 : createProjectStep now (s, []) ⟨P, nm, some (some T)⟩ =
      (⟨s.projects ++ [⟨P, nm, none, now, now, none⟩], s.tasks⟩, []) := by
    simp [createProjectStep, hp, hn]
  have e2 : createTaskStep now
      ((⟨s.projects ++ [⟨P, nm, none, now, now, none⟩], s.tasks⟩ : Store), []) ⟨T, tl, some (some P)⟩ =
      (⟨s.projects ++ [⟨P, nm, none, now, now, none⟩],
        s.tasks ++ [⟨T, tl, none, now, now, none⟩]⟩, []) := by
    have ht' : taskIdTaken (⟨s.projects ++ [⟨P, nm, none, now, now, none⟩], s.tasks⟩ : Store) T = false := ht
    simp [createTaskStep, ht', htt]
  have e3 : linkProjectStep now
      ((⟨s.projects ++ [⟨P, nm, none, now, now, none⟩],
        s.tasks ++ [⟨T, tl, none, now, now, none⟩]⟩ : Store), []) ⟨P, nm, some (some T)⟩ =
      (⟨s.projects ++ [⟨P, nm, some T, now, now, none⟩],
        s.tasks ++ [⟨T, tl, none, now, now, none⟩]⟩, []) := by
    have hr : resolveTaskRef (⟨s.projects ++ [⟨P, nm, none, now, now, none⟩],
        s.tasks ++ [⟨T, tl, none, now, now, none⟩]⟩ : Store) (some T) =
        some ⟨T, tl, none, now, now, none⟩ := by
      unfold resolveTaskRef
      exact hgt0 _
    simp only [linkProjectStep, hgp0, hr]
    rw [Prod.mk.injEq]
    refine ⟨?_, rfl⟩
    rw [Store.mk.injEq]
    exact ⟨hmapP none, rfl⟩
  have e4 : linkTaskStep now
      ((⟨s.projects ++ [⟨P, nm, some T, now, now, none⟩],
        s.tasks ++ [⟨T, tl, none, now, now, none⟩]⟩ : Store), []) ⟨T, tl, some (some P)⟩ =
      (⟨s.projects ++ [⟨P, nm, some T, now, now, none⟩],
        s.tasks ++ [⟨T, tl, some P, now, now, none⟩]⟩, []) := by
    have hr : resolveProjectRef (⟨s.projects ++ [⟨P, nm, some T, now, now, none⟩],
        s.tasks ++ [⟨T, tl, none, now, now, none⟩]⟩ : Store) (some P) =
        some ⟨P, nm, some T, now, now, none⟩ := by
      unfold resolveProjectRef
      exact hgp1 _
    simp only [linkTaskStep, hgt0, hr]
    rw [Prod.mk.injEq]
    refine ⟨?_, rfl⟩
    rw [Store.mk.injEq]
    exact ⟨rfl, hmapT none⟩
  have hmain : applyChanges s ⟨[⟨P, nm, some (some T)⟩], [], []⟩
      ⟨[⟨T, tl, some (some P)⟩], [], []⟩ now =
      (⟨s.projects ++ [⟨P, nm, some T, now, now, none⟩],
        s.tasks ++ [⟨T, tl, some P, now, now, none⟩]⟩, []) := by
    simp only [applyChanges, List.foldl_cons, List.foldl_nil]
    rw [e1, e2, e3, e4]
  -- swapped order: tasks are created and linked first
  have e1' : createTaskStep now (s, []) ⟨T, tl, some (some P)⟩ =
      (⟨s.projects, s.tasks ++ [⟨T, tl, none, now, now, none⟩]⟩, []) := by
    simp [createTaskStep, ht, htt]
  have e2' : createProjectStep now
      ((⟨s.projects, s.tasks ++ [⟨T, tl, none, now, now, none⟩]⟩ : Store), []) ⟨P, nm, some (some T)⟩ =
      (⟨s.projects ++ [⟨P, nm, none, now, now, none⟩],
        s.tasks ++ [⟨T, tl, none, now, now, none⟩]⟩, []) := by
    have hp' : projectIdTaken (⟨s.projects, s.tasks ++ [⟨T, tl, none, now, now, none⟩]⟩ : Store) P = false := hp
    simp [createProjectStep, hp', hn]
  have e3' : linkTaskStep now
      ((⟨s.projects ++ [⟨P, nm, none, now, now, none⟩],
        s.tasks ++ [⟨T, tl, none, now, now, none⟩]⟩ : Store), []) ⟨T, tl, some (some P)⟩ =
      (⟨s.projects ++ [⟨P, nm, none, now, now, none⟩],
        s.tasks ++ [⟨T, tl, some P, now, now, none⟩]⟩, []) := by
    have hr : resolveProjectRef (⟨s.projects ++ [⟨P, nm, none, now, now, none⟩],
        s.tasks ++ [⟨T, tl, none, now, now, none⟩]⟩ : Store) (some P) =
        some ⟨P, nm, none, now, now, none⟩ := by
      unfold resolveProjectRef
      exact hgp0 _
    simp only [linkTaskStep, hgt0, hr]
    rw [Prod.mk.injEq]
    refine ⟨?_, rfl⟩
    rw [Store.mk.injEq]
    exact ⟨rfl, hmapT none⟩
  have e4' : linkProjectStep now
      ((⟨s.projects ++ [⟨P, nm, none, now, now, none⟩],
        s.tasks ++ [⟨T, tl, some P, now, now, none⟩]⟩ : Store), []) ⟨P, nm, some (some T)⟩ =
      (⟨s.projects ++ [⟨P, nm, some T, now, now, none⟩],
        s.tasks ++ [⟨T, tl, some P, now, now, none⟩]⟩, []) := by
    have hr : resolveTaskRef (⟨s.projects ++ [⟨P, nm, none, now, now, none⟩],
        s.tasks ++ [⟨T, tl, some P, now, now, none⟩]⟩ : Store) (some T) =
        some ⟨T, tl, some P, now, now, none⟩ := by
      unfold resolveTaskRef
      exact hgt1 _
    simp only [linkProjectStep, hgp0, hr]
    rw [Prod.mk.injEq]
    refine ⟨?_, rfl⟩
    rw [Store.mk.injEq]
    exact ⟨hmapP none, rfl⟩
  have hswap : applyChangesTasksFirst s ⟨[⟨P, nm, some (some T)⟩], [], []⟩
      ⟨[⟨T, tl, some (some P)⟩], [], []⟩ now =
      (⟨s.projects ++ [⟨P, nm, some T, now, now, none⟩],
        s.tasks ++ [⟨T, tl, some P, now, now, none⟩]⟩, []) := by
    simp only [applyChangesTasksFirst, List.foldl_cons, List.foldl_nil]
    rw [e1', e2', e3', e4']
  exact ⟨hmain, hswap.trans hmain.symm⟩

/-- Witness for C1 at a concrete input. -/
theorem c1_cycle_resolution_witness :
    projectIdTaken ⟨[], []⟩ "P1" = false ∧ taskIdTaken ⟨[], []⟩ "T1" = false ∧
    validName "Alpha" = true ∧ validTitle "todo" = true ∧
    (applyChanges ⟨[], []⟩ ⟨[⟨"P1", "Alpha", some (some "T1")⟩], [], []⟩
        ⟨[⟨"T1", "todo", some (some "P1")⟩], [], []⟩ 7 =
      (⟨[⟨"P1", "Alpha", some "T1", 7, 7, none⟩],
        [⟨"T1", "todo", some "P1", 7, 7, none⟩]⟩, []) ∧
    applyChangesTasksFirst ⟨[], []⟩ ⟨[⟨"P1", "Alpha", some (some "T1")⟩], [], []⟩
        ⟨[⟨"T1", "todo", some (some "P1")⟩], [], []⟩ 7 =
      applyChanges ⟨[], []⟩ ⟨[⟨"P1", "Alpha", some (some "T1")⟩], [], []⟩
        ⟨[⟨"T1", "todo", some (some "P1")⟩], [], []⟩ 7) := by
  refine ⟨by decide, by decide, by decide, by decide, ?_⟩
  have h := c1_cycle_resolution ⟨[], []⟩ 7 "P1" "T1" "Alpha" "todo"
    (by decide) (by decide) (by decide) (by decide)
  simpa using h

/-- C4: a Push batch containing a valid `tasks` create and a `deleted`
id that matches no record returns a non-empty error list (status 400),
yet the successfully created task is committed and present in the
returned store — per-item errors are collected, never raised, so the
enclosing `transaction.atomic()` always commits. -/
theorem c4_per_item_errors_do_not_roll_back
    (s : Store) (now : Int) (tid ttitle z : String)
    (hfresh : taskIdTaken s tid = false)
    (htitle : validTitle ttitle = true)
    (hz : taskIdTaken s z = false)
    (hzt : (z == tid) = false) :
    postApp s ⟨[], [], []⟩ ⟨[⟨tid, ttitle, none⟩], [], [z]⟩ now =
      (⟨s.projects, s.tasks ++ [⟨tid, ttitle, none, now, now, none⟩]⟩,
       ["Task " ++ z ++ " does not exist"], 400) := by
  have e2 : createTaskStep now (s, []) ⟨tid, ttitle, none⟩ =
      (⟨s.projects, s.tasks ++ [⟨tid, ttitle, none, now, now, none⟩]⟩, []) := by
    simp [createTaskStep, hfresh, htitle]
  have e4 : linkTaskStep now
      ((⟨s.projects, s.tasks ++ [⟨tid, ttitle, none, now, now, none⟩]⟩ : Store), [])
      ⟨tid, ttitle, none⟩ =
      ((⟨s.projects, s.tasks ++ [⟨tid, ttitle, none, now, now, none⟩]⟩ : Store), []) := rfl
  have hzz : getTask (⟨s.projects, s.tasks ++ [⟨tid, ttitle, none, now, now, none⟩]⟩ : Store) z = none := by
    unfold getTask
    dsimp only
    refine List.find?_eq_none.2 (fun x hx => ?_)
    rcases List.mem_append.1 hx with h | h
    · simp [taskIdTaken_false_forall hz x h]
    · have hx1 : x = ⟨tid, ttitle, none, now, now, none⟩ := by simpa using h
      subst hx1
      have : tid ≠ z := Ne.symm (beq_eq_false_iff_ne.1 hzt)
      simp [this]
  have e8 : deleteTaskStep now
      ((⟨s.projects, s.tasks ++ [⟨tid, ttitle, none, now, now, none⟩]⟩ : Store), []) z =
      ((⟨s.projects, s.tasks ++ [⟨tid, ttitle, none, now, now, none⟩]⟩ : Store),
       ["Task " ++ z ++ " does not exist"]) := by
    simp [deleteTaskStep, hzz]
  simp only [postApp, applyChanges, List.foldl_cons, List.foldl_nil]
  simp only [e2, e4, e8]
  simp

/-- Witness for C4 at a concrete input. -/
theorem c4_per_item_errors_do_not_roll_back_witness :
    taskIdTaken ⟨[], []⟩ "T1" = false ∧ validTitle "todo" = true ∧
    taskIdTaken ⟨[], []⟩ "Z9" = false ∧ (("Z9" == "T1") = false) ∧
    postApp ⟨[], []⟩ ⟨[], [], []⟩ ⟨[⟨"T1", "todo", none⟩], [], ["Z9"]⟩ 50 =
      (⟨[], [⟨"T1", "todo", none, 50, 50, none⟩]⟩,
       ["Task Z9 does not exist"], 400) := by
  refine ⟨by decide, by decide, by decide, by decide, ?_⟩
  have h := c4_per_item_errors_do_not_roll_back ⟨[], []⟩ 50 "T1" "todo" "Z9"
    (by decide) (by decide) (by decide) (by decide)
  simpa using h

theorem getTask_none_of_not_taken {S : Store} {i : String}
    (h : taskIdTaken S i = false) : getTask S i = none := by
  unfold getTask
  exact List.find?_eq_none.2 (by simpa using taskIdTaken_false_forall h)

theorem getTask_isSome_of_taken {S : Store} {i : String}
    (h : taskIdTaken S i = true) : ∃ t, getTask S i = some t := by
  cases hf : getTask S i with
  | some t => exact ⟨t, rfl⟩
  | none =>
    exfalso
    unfold getTask at hf
    have hall := List.find?_eq_none.1 hf
    unfold taskIdTaken at h
    rw [List.any_eq_true] at h
    obtain ⟨x, hx, hpx⟩ := h
    exact absurd hpx (by simpa using hall x hx)

theorem deleteTaskStep_split (now : Int) (S : Store) (E : List String) (i : String) :
    deleteTaskStep now (S, E) i =
      ((deleteTaskStep now (S, []) i).1, E ++ (deleteTaskStep now (S, []) i).2) := by
  unfold deleteTaskStep
  dsimp only
  split <;> simp

theorem deleteTaskStep_exists_of_taken (now : Int) (S : Store) (E : List String) (i : String)
    (h : taskIdTaken S i = true) :
    ∃ S' : Store, deleteTaskStep now (S, E) i = (S', E) ∧
      ∀ j, taskIdTaken S' j = taskIdTaken S j := by
  obtain ⟨t, ht⟩ := getTask_isSome_of_taken h
  refine ⟨⟨S.projects, S.tasks.map (fun r =>
      if r.id == i then { r with deleted_at := some now, updated_at := now } else r)⟩,
    by simp [deleteTaskStep, ht], fun j => ?_⟩
  unfold taskIdTaken
  dsimp only
  rw [List.any_map]
  have hfun : ((fun r : TaskRec => r.id == j) ∘ (fun r : TaskRec =>
      if r.id == i then { r with deleted_at := some now, updated_at := now } else r)) =
      (fun r : TaskRec => r.id == j) := by
    funext r
    by_cases hc : r.id = i <;> simp [hc]
  rw [hfun]

theorem foldl_delT_all_exist_errs (now : Int) :
    ∀ (l : List String) (S : Store) (E : List String),
      (∀ i ∈ l, taskIdTaken S i = true) →
      (List.foldl (deleteTaskStep now) (S, E) l).2 = E := by
  intro l
  induction l with
  | nil => intro S E _; rfl
  | cons a t ih =>
    intro S E h
    obtain ⟨S', hstep, hpres⟩ := deleteTaskStep_exists_of_taken now S E a (h a (by simp))
    simp only [List.foldl_cons]
    rw [hstep]
    exact ih S' E (fun i hi => by rw [hpres]; exact h i (by simp [hi]))

theorem foldl_delT_store_errs (now : Int) :
    ∀ (l : List String) (S : Store) (E E' : List String),
      (List.foldl (deleteTaskStep now) (S, E) l).1 =
        (List.foldl (deleteTaskStep now) (S, E') l).1 := by
  intro l
  induction l with
  | nil => intros; rfl
  | cons a t ih =>
    intro S E E'
    simp only [List.foldl_cons]
    rw [deleteTaskStep_split now S E a, deleteTaskStep_split now S E' a]
    exact ih _ _ _

theorem foldl_delT_skip_missing (now : Int) :
    ∀ (l1 : List String) (S : Store) (l2 : List String) (z : String),
      (∀ i ∈ l1 ++ l2, taskIdTaken S i = true) →
      taskIdTaken S z = false →
      List.foldl (deleteTaskStep now) (S, []) (l1 ++ z :: l2) =
        ((List.foldl (deleteTaskStep now) (S, []) (l1 ++ l2)).1,
         ["Task " ++ z ++ " does not exist"]) := by
  intro l1
  induction l1 with
  | nil =>
    intro S l2 z hl hz
    simp only [List.nil_append, List.foldl_cons]
    rw [show deleteTaskStep now (S, []) z =
        (S, ["Task " ++ z ++ " does not exist"]) from by
      simp [deleteTaskStep, getTask_none_of_not_taken hz]]
    have h1 : (List.foldl (deleteTaskStep now)
        (S, ["Task " ++ z ++ " does not exist"]) l2).1 =
        (List.foldl (deleteTaskStep now) (S, []) l2).1 :=
      foldl_delT_store_errs now l2 S _ _
    have h2 : (List.foldl (deleteTaskStep now)
        (S, ["Task " ++ z ++ " does not exist"]) l2).2 =
        ["Task " ++ z ++ " does not exist"] :=
      foldl_delT_all_exist_errs now l2 S _ (by simpa using hl)
    rw [← Prod.mk.eta (p := List.foldl (deleteTaskStep now)
        (S, ["Task " ++ z ++ " does not exist"]) l2), h1, h2]
  | cons a t ih =>
    intro S l2 z hl hz
    have ha : taskIdTaken S a = true := hl a (by simp)
    obtain ⟨S', hstep, hpres⟩ := deleteTaskStep_exists_of_taken now S [] a ha
    simp only [List.cons_append, List.foldl_cons]
    rw [hstep]
    exact ih S' l2 z
      (fun i hi => by rw [hpres]; exact hl i (by simp at hi ⊢; tauto))
      (by rw [hpres]; exact hz)

/-- C7: a Push batch whose `tasks.deleted` list contains one id that
matches no record produces exactly one error, whose text names the id
and its collection's model (`Task <id> does not exist`), and the
resulting store is exactly the store produced by the same batch with
the failing id removed — the failing item never interrupts or alters
the processing of its siblings. -/
theorem c7_delete_nonexistent_isolated
    (s : Store) (now : Int) (l1 l2 : List String) (z : String)
    (hex : ∀ i ∈ l1 ++ l2, taskIdTaken s i = true)
    (hz : taskIdTaken s z = false) :
    postApp s ⟨[], [], []⟩ ⟨[], [], l1 ++ z :: l2⟩ now =
      ((applyChanges s ⟨[], [], []⟩ ⟨[], [], l1 ++ l2⟩ now).1,
       ["Task " ++ z ++ " does not exist"], 400) := by
  have hmain := foldl_delT_skip_missing now l1 s l2 z hex hz
  simp only [postApp, applyChanges, List.foldl_nil]
  simp only [hmain]
  simp

/-- Witness for C7 at a concrete input. -/
theorem c7_delete_nonexistent_isolated_witness :
    (∀ i ∈ (["T1"] ++ []: List String),
      taskIdTaken ⟨[], [⟨"T1", "x", none, 0, 0, none⟩]⟩ i = true) ∧
    taskIdTaken ⟨[], [⟨"T1", "x", none, 0, 0, none⟩]⟩ "Z9" = false ∧
    postApp ⟨[], [⟨"T1", "x", none, 0, 0, none⟩]⟩ ⟨[], [], []⟩
        ⟨[], [], ["T1"] ++ "Z9" :: []⟩ 50 =
      ((applyChanges ⟨[], [⟨"T1", "x", none, 0, 0, none⟩]⟩ ⟨[], [], []⟩
          ⟨[], [], ["T1"] ++ []⟩ 50).1,
       ["Task Z9 does not exist"], 400) := by
  refine ⟨by decide, by decide, ?_⟩
  have h := c7_delete_nonexistent_isolated ⟨[], [⟨"T1", "x", none, 0, 0, none⟩]⟩ 50
    ["T1"] [] "Z9" (by decide) (by decide)
  simpa using h

/-- C8 counterexample: the claim says a record serialized into a Pull
response's `created`/`updated` bucket never contains `deleted_at`.  In
`watermelon_user`, `UserSerializer.Meta.fields` includes `deleted_at`,
so the live user below is pulled into `created` with a `deleted_at`
key (value null). -/
theorem c8_counterexample_user_pull_contains_deleted_at :
    (pullUserApp ⟨[⟨1, "u", "e", "f", "l", 5, 5, none⟩], []⟩ (some 0) 99).1.users.created =
      [[("id", JVal.num 1), ("username", JVal.str "u"), ("email", JVal.str "e"),
        ("first_name", JVal.str "f"), ("last_name", JVal.str "l"),
        ("created_at", JVal.num 5), ("updated_at", JVal.num 5),
        ("deleted_at", JVal.null)]] := by
  decide

/-- C8 amended: in `watermelon_app`, every record serialized into a
Pull `created`/`updated` bucket carries exactly the schema fields plus
`id`, `created_at`, `updated_at` and no `deleted_at`, and tombstoned
records appear only as bare identifiers; in `watermelon_user` the
serializers additionally expose `deleted_at`, so every pulled user
record contains a `deleted_at` key (null for live records). -/
theorem c8_amended_serialization_fields
    (s : Store) (us : UserStore) (cursor : Option Int) (now : Int)
    (x y : List (String × JVal)) :
    (x ∈ (pullApp s cursor now).1.projects.created →
      x.map Prod.fst = ["id", "name", "lead_task", "created_at", "updated_at"]) ∧
    (x ∈ (pullApp s cursor now).1.projects.updated →
      x.map Prod.fst = ["id", "name", "lead_task", "created_at", "updated_at"]) ∧
    (x ∈ (pullApp s cursor now).1.tasks.created →
      x.map Prod.fst = ["id", "title", "project", "created_at", "updated_at"]) ∧
    (x ∈ (pullApp s cursor now).1.tasks.updated →
      x.map Prod.fst = ["id", "title", "project", "created_at", "updated_at"]) ∧
    (y ∈ (pullUserApp us cursor now).1.users.created →
      "deleted_at" ∈ y.map Prod.fst) := by
  refine ⟨?_, ?_, ?_, ?_, ?_⟩ <;> intro hx <;>
    simp only [pullApp, pullUserApp, List.mem_map] at hx <;>
    obtain ⟨r, _, hr⟩ := hx <;> subst hr <;>
    simp [serializeProject, serializeTask, serializeUser]

/-- Witness for the amended C8 at concrete inputs. -/
theorem c8_amended_witness :
    (serializeProject ⟨"P1", "n", none, 5, 5, none⟩ ∈
        (pullApp ⟨[⟨"P1", "n", none, 5, 5, none⟩], []⟩ (some 0) 9).1.projects.created ∧
      (serializeProject ⟨"P1", "n", none, 5, 5, none⟩).map Prod.fst =
        ["id", "name", "lead_task", "created_at", "updated_at"]) ∧
    (serializeUser ⟨1, "u", "e", "f", "l", 5, 5, none⟩ ∈
        (pullUserApp ⟨[⟨1, "u", "e", "f", "l", 5, 5, none⟩], []⟩ (some 0) 9).1.users.created ∧
      "deleted_at" ∈ (serializeUser ⟨1, "u", "e", "f", "l", 5, 5, none⟩).map Prod.fst) := by
  refine ⟨⟨by decide, ?_⟩, by decide, ?_⟩
  · exact (c8_amended_serialization_fields ⟨[⟨"P1", "n", none, 5, 5, none⟩], []⟩
      ⟨[], []⟩ (some 0) 9 (serializeProject ⟨"P1", "n", none, 5, 5, none⟩) []).1 (by decide)
  · exact (c8_amended_serialization_fields ⟨[], []⟩
      ⟨[⟨1, "u", "e", "f", "l", 5, 5, none⟩], []⟩ (some 0) 9 []
      (serializeUser ⟨1, "u", "e", "f", "l", 5, 5, none⟩)).2.2.2.2 (by decide)

/-- Witness for C5 at a concrete input. -/
theorem c5_pull_buckets_pairwise_disjoint_witness :
    ((([⟨"P1", "n", none, 5, 5, none⟩] : List ProjectRec).map (fun x => x.id)).Nodup) ∧
    (decide (serializeProject ⟨"P1", "n", none, 5, 5, none⟩ ∈
        (pullApp ⟨[⟨"P1", "n", none, 5, 5, none⟩], []⟩ (some 0) 9).1.projects.created) &&
      decide (serializeProject ⟨"P1", "n", none, 5, 5, none⟩ ∈
        (pullApp ⟨[⟨"P1", "n", none, 5, 5, none⟩], []⟩ (some 0) 9).1.projects.updated)) = false := by
  refine ⟨by decide, ?_⟩
  exact (c5_pull_buckets_pairwise_disjoint ⟨[⟨"P1", "n", none, 5, 5, none⟩], []⟩
    (some 0) 9 ⟨"P1", "n", none, 5, 5, none⟩ (by decide)).2.1

/-- Witness for C6 at a concrete input. -/
theorem c6_full_snapshot_pull_witness :
    wfStore ⟨[⟨"P1", "n", none, 5, 5, none⟩], [⟨"T1", "t", none, 5, 5, some 6⟩]⟩ = true ∧
    (pullApp ⟨[⟨"P1", "n", none, 5, 5, none⟩], [⟨"T1", "t", none, 5, 5, some 6⟩]⟩
        none 9).1.projects.updated = [] ∧
    serializeProject ⟨"P1", "n", none, 5, 5, none⟩ ∈
      (pullApp ⟨[⟨"P1", "n", none, 5, 5, none⟩], [⟨"T1", "t", none, 5, 5, some 6⟩]⟩
        none 9).1.projects.created ∧
    "T1" ∈ (pullApp ⟨[⟨"P1", "n", none, 5, 5, none⟩], [⟨"T1", "t", none, 5, 5, some 6⟩]⟩
        none 9).1.tasks.deleted := by
  have h := c6_full_snapshot_pull
    ⟨[⟨"P1", "n", none, 5, 5, none⟩], [⟨"T1", "t", none, 5, 5, some 6⟩]⟩ 9 (by decide)
  exact ⟨by decide, h.1.1,
    h.2.1 ⟨"P1", "n", none, 5, 5, none⟩ (by decide) rfl,
    h.2.2.2.2.2.2.2.1 ⟨"T1", "t", none, 5, 5, some 6⟩ (by decide) (by decide)⟩

end WatermelonSync
